import Mathlib

/-!
Verification of the reminder data engine: a shallow embedding of the
due-date visibility engine, the note/tag mutators and the backup logic,
together with theorems checking the documented behaviour.

All wall-clock reads (`utils.CurrentUnixTimestamp` in the source) are
threaded as an explicit `currentTimestamp : Int` parameter so the model
stays deterministic, exactly as the design notes demand.
-/

namespace Reminder

/-! ## Calendar arithmetic (models Go `time` package behaviour at UTC midnight) -/

/-- A calendar date (proleptic Gregorian, as used by Go `time` at UTC). -/
structure Date where
  year : Int
  month : Int
  day : Int
deriving Repr, DecidableEq

/-- Gregorian leap-year rule, as implemented by Go `time.Date`. -/
def isLeapYear (y : Int) : Bool :=
  y % 4 == 0 && (y % 100 != 0 || y % 400 == 0)

/-- Number of days in a month of a given year (Gregorian calendar). -/
def daysInMonth (y m : Int) : Int :=
  if m = 2 then (if isLeapYear y then 29 else 28)
  else if m = 4 ∨ m = 6 ∨ m = 9 ∨ m = 11 then 30
  else 31

/-- Days since 1970-01-01 of a Gregorian date (Howard Hinnant's civil-days
algorithm, matching Go `time.Date(y, m, d, 0, 0, 0, 0, time.UTC).Unix() / 86400`). -/
def daysFromCivil (y m d : Int) : Int :=
  let y1 := if m ≤ 2 then y - 1 else y
  let era := (if 0 ≤ y1 then y1 else y1 - 399).fdiv 400
  let yoe := y1 - era * 400
  let mp := (m + 9).emod 12
  let doy := (153 * mp + 2).fdiv 5 + d - 1
  let doe := yoe * 365 + yoe.fdiv 4 - yoe.fdiv 100 + doy
  era * 146097 + doe - 719468

/-- Inverse of `daysFromCivil`: the Gregorian date of a day count since epoch. -/
def civilFromDays (z0 : Int) : Date :=
  let z := z0 + 719468
  let era := (if 0 ≤ z then z else z - 146096).fdiv 146097
  let doe := z - era * 146097
  let yoe := (doe - doe.fdiv 1460 + doe.fdiv 36524 - doe.fdiv 146096).fdiv 365
  let y := yoe + era * 400
  let doy := doe - (365 * yoe + yoe.fdiv 4 - yoe.fdiv 100)
  let mp := (5 * doy + 2).fdiv 153
  let d := doy - (153 * mp + 2).fdiv 5 + 1
  let m := if mp < 10 then mp + 3 else mp - 9
  ⟨if m ≤ 2 then y + 1 else y, m, d⟩

/-- Unix timestamp (seconds) of a Gregorian date at UTC midnight. -/
def dateToUnix (y m d : Int) : Int :=
  daysFromCivil y m d * 86400

/-- Calendar date of a Unix timestamp at UTC; models
`time.Unix(ts, 0).UTC().Date()` (source `utils.UnixTimestampToTime` followed
by `.Date()`). -/
def unixToDate (ts : Int) : Date :=
  civilFromDays (ts.fdiv 86400)

/-- `Unix()` of Go's zero `time.Time` (January 1, year 1, 00:00:00 UTC),
the value produced when a discarded `time.Parse` error left the zero value. -/
def goZeroTimeUnix : Int := -62135596800

/-! ## Temporal utilities (source file `pkg/utils`, package `utils`) -/

/-- Models `time.Parse("2006-1-2", fmt.Sprintf("%v-%v-%v", y, m, d)).Unix()`
with the parse error discarded, as done by
`UnixTimestampForCorrespondingCurrentYear` and
`UnixTimestampForCorrespondingCurrentYearMonth`: the parse succeeds exactly
when the year prints as four digits and the month/day denote a real calendar
date; on failure the zero time is returned. -/
def parseYMDTimestamp (y m d : Int) : Int :=
  if 1000 ≤ y ∧ y ≤ 9999 ∧ 1 ≤ m ∧ m ≤ 12 ∧ 1 ≤ d ∧ d ≤ daysInMonth y m
  then dateToUnix y m d
  else goZeroTimeUnix

/-- Source `utils.UnixTimestampForCorrespondingCurrentYear`: project
(month, day) onto the current year of `currentTimestamp`. -/
def unixTimestampForCorrespondingCurrentYear (currentTimestamp month day : Int) : Int :=
  let currentYear := (unixToDate currentTimestamp).year
  parseYMDTimestamp currentYear month day

/-- Source `utils.UnixTimestampForCorrespondingCurrentYearMonth`: project a
day-of-month onto the current year and month of `currentTimestamp`. -/
def unixTimestampForCorrespondingCurrentYearMonth (currentTimestamp day : Int) : Int :=
  let dt := unixToDate currentTimestamp
  parseYMDTimestamp dt.year dt.month day

/-- Source `utils.IntPresentInSlice`. -/
def intPresentInSlice (a : Int) (list : List Int) : Bool :=
  list.any (fun b => b == a)

/-- Source `utils.GetCommonMembersIntSlices`: nested loop collecting `e1`
for every pair `e1 ∈ arr1`, `e2 ∈ arr2` with `e1 = e2`. -/
def getCommonMembersIntSlices (arr1 arr2 : List Int) : List Int :=
  arr1.flatMap (fun e1 => (arr2.filter (fun e2 => e2 == e1)).map (fun _ => e1))

/-- Source `utils.TrimString` (`strings.TrimSpace`): drop whitespace from
both ends, written over the character list so it evaluates by reduction. -/
def trimString (str : String) : String :=
  String.mk (((str.data.dropWhile Char.isWhitespace).reverse.dropWhile
    Char.isWhitespace).reverse)

/-- Source `utils.IsTimeForRepeatNote`, with the wall-clock read threaded as
`currentTimestamp`. -/
def isTimeForRepeatNote (currentTimestamp noteTimestampCurrent noteTimestampPrevious noteTimestampNext daysBefore daysAfter : Int) : Bool :=
  let daysSecs : Int := 24 * 60 * 60
  (decide (noteTimestampCurrent - daysBefore * daysSecs ≤ currentTimestamp) &&
     decide (currentTimestamp ≤ noteTimestampCurrent + daysAfter * daysSecs)) ||
  (decide (noteTimestampPrevious - daysBefore * daysSecs ≤ currentTimestamp) &&
     decide (currentTimestamp ≤ noteTimestampPrevious + daysAfter * daysSecs)) ||
  (decide (noteTimestampNext - daysBefore * daysSecs ≤ currentTimestamp) &&
     decide (currentTimestamp ≤ noteTimestampNext + daysAfter * daysSecs))

/-! ## Data model (source `internal/models/note.go` and the `model` package) -/

/-- A Tag entity (`id, slug, group, created_at, updated_at`). -/
structure Tag where
  id : Int
  slug : String
  group : String
  createdAt : Int
  updatedAt : Int
deriving Repr, DecidableEq

/-- A Comment attached to a note. -/
structure Comment where
  text : String
  createdAt : Int
deriving Repr, DecidableEq

/-- A Note (source `internal/models/note.go`). -/
structure Note where
  text : String
  comments : List Comment
  status : String
  tagIds : List Int
  completeBy : Int
  createdAt : Int
  updatedAt : Int
deriving Repr, DecidableEq

/-- The app user (descriptive only). -/
structure User where
  name : String
  emailId : String
deriving Repr, DecidableEq

/-- The persisted aggregate (source `ReminderData`). -/
structure ReminderData where
  user : User
  notes : List Note
  tags : List Tag
  dataFile : String
  lastBackupAt : Int
  updatedAt : Int
deriving Repr, DecidableEq

/-- Modelled from the spec: `lookupBySlug(slug) -> Tag?`, exact match, `nil`
if absent. The `Tags.FromSlug` method body is not among the provided source
files; only its callers (`TagFromSlug`, the visibility engine) are. -/
def fromSlug (tags : List Tag) (slug : String) : Option Tag :=
  tags.find? (fun t => t.slug == slug)

/-- Modelled from the spec: `idsForGroup(group) -> set<int>`, all tag ids
whose `group` equals the argument. The `Tags.IdsForGroup` method body is not
among the provided source files; only its callers are. -/
def idsForGroup (tags : List Tag) (group : String) : List Int :=
  (tags.filter (fun t => t.group == group)).map (fun t => t.id)

/-- Source `Notes.WithStatus`: filter notes with the given status. -/
def withStatus (notes : List Note) (status : String) : List Note :=
  notes.filter (fun note => note.status == status)

/-- Source `model.BasicTags`: the canonical seven seeded tags, ids `0..6`,
with both timestamps set to creation time. -/
def basicTags (now : Int) : List Tag :=
  [ ⟨0, "current", "", now, now⟩,
    ⟨1, "priority-urgent", "priority", now, now⟩,
    ⟨2, "priority-medium", "priority", now, now⟩,
    ⟨3, "priority-low", "priority", now, now⟩,
    ⟨4, "repeat-annually", "repeat", now, now⟩,
    ⟨5, "repeat-monthly", "repeat", now, now⟩,
    ⟨6, "tips", "tips", now, now⟩ ]

/-! ## Due-Date Visibility Engine (source `ReminderData.NotesApprachingDueDate`) -/

/-- The `repeat-annually` branch of the engine: the note carries the id of
the tag with slug "repeat-annually" (if registered), and
`IsTimeForRepeatNote` holds for the current-year projection of the note's
month/day and that projection shifted by ∓365 days, with a 3-days-before /
7-days-after window. -/
def annualCheck (tags : List Tag) (currentTimestamp : Int) (note : Note) : Bool :=
  match fromSlug tags "repeat-annually" with
  | none => false
  | some repeatAnnuallyTag =>
    intPresentInSlice repeatAnnuallyTag.id note.tagIds &&
    (let dt := unixToDate note.completeBy
     let noteTimestampCurrent := unixTimestampForCorrespondingCurrentYear currentTimestamp dt.month dt.day
     let noteTimestampPrevious := noteTimestampCurrent - 365 * 24 * 60 * 60
     let noteTimestampNext := noteTimestampCurrent + 365 * 24 * 60 * 60
     isTimeForRepeatNote currentTimestamp noteTimestampCurrent noteTimestampPrevious noteTimestampNext 3 7)

/-- The `repeat-monthly` branch of the engine: the note carries the id of
the tag with slug "repeat-monthly" (if registered), and
`IsTimeForRepeatNote` holds for the current-month projection of the note's
day and that projection shifted by ∓30 days, with a 1-day-before /
3-days-after window. -/
def monthlyCheck (tags : List Tag) (currentTimestamp : Int) (note : Note) : Bool :=
  match fromSlug tags "repeat-monthly" with
  | none => false
  | some repeatMonthlyTag =>
    intPresentInSlice repeatMonthlyTag.id note.tagIds &&
    (let dt := unixToDate note.completeBy
     let noteTimestampCurrent := unixTimestampForCorrespondingCurrentYearMonth currentTimestamp dt.day
     let noteTimestampPrevious := noteTimestampCurrent - 30 * 24 * 60 * 60
     let noteTimestampNext := noteTimestampCurrent + 30 * 24 * 60 * 60
     isTimeForRepeatNote currentTimestamp noteTimestampCurrent noteTimestampPrevious noteTimestampNext 1 3)

/-- The entries the engine's loop body appends for one pending note: the
plain-due-date branch, then the annual branch, then the monthly branch
(so a note can be appended more than once, as in the source). -/
def noteEntries (tags : List Tag) (currentTimestamp : Int) (note : Note) : List Note :=
  (if (getCommonMembersIntSlices note.tagIds (idsForGroup tags "repeat")).length = 0 ∧
      note.completeBy ≠ 0 ∧ note.completeBy - 7 * 24 * 60 * 60 ≤ currentTimestamp
   then [note] else []) ++
  (if 0 < (getCommonMembersIntSlices note.tagIds (idsForGroup tags "repeat")).length ∧
      note.completeBy ≠ 0 ∧ annualCheck tags currentTimestamp note = true
   then [note] else []) ++
  (if 0 < (getCommonMembersIntSlices note.tagIds (idsForGroup tags "repeat")).length ∧
      note.completeBy ≠ 0 ∧ monthlyCheck tags currentTimestamp note = true
   then [note] else [])

/-- Source `ReminderData.NotesApprachingDueDate` (the name's spelling follows
the source): all pending notes passing one of the three visibility policies,
with the wall-clock read threaded as `currentTimestamp`. -/
def notesApprachingDueDate (reminderData : ReminderData) (currentTimestamp : Int) : List Note :=
  (withStatus reminderData.notes "pending").flatMap
    (noteEntries reminderData.tags currentTimestamp)

/-! ## Mutators (source `internal/models/note.go` and `model` package) -/

/-- Source `ReminderData.UpdateDataFile`, restricted to its state effect on a
successful write: it stamps the aggregate's `UpdatedAt` and reports no error
(the JSON marshalling and file write are IO and abstracted as succeeding). -/
def updateDataFile (now : Int) (reminderData : ReminderData) : ReminderData × Option String :=
  ({ reminderData with updatedAt := now }, none)

/-- Source `ReminderData.newTagAppend`: reject a slug already present,
otherwise append the tag and persist. -/
def newTagAppend (now : Int) (reminderData : ReminderData) (tag : Tag) : ReminderData × Option String :=
  if reminderData.tags.any (fun existingTag => existingTag.slug == tag.slug) then
    (reminderData, some "Tag Already Exists")
  else
    updateDataFile now { reminderData with tags := reminderData.tags ++ [tag] }

/-- Source `Note.UpdateStatus`: skipped (without error) when the note carries
a repeat-group tag or the status is unchanged; otherwise flips the status and
stamps `UpdatedAt`. Always returns `nil` error, as in the source. -/
def updateStatus (now : Int) (note : Note) (status : String) (repeatTagIds : List Int) : Note × Option String :=
  let noteIdsWithRepeat := getCommonMembersIntSlices note.tagIds repeatTagIds
  if noteIdsWithRepeat.length ≠ 0 then
    (note, none)
  else if note.status ≠ status then
    ({ note with status := status, updatedAt := now }, none)
  else
    (note, none)

/-- Models Go `time.Parse("2-1-2006", text)` as used by
`Note.UpdateCompleteBy`: a 1-2 digit day, a dash, a 1-2 digit month, a dash,
a 4-digit year, nothing else, and the day must exist in that month/year;
`none` models the parse error (which the source discards). -/
def parseDayMonthYear (text : String) : Option Date :=
  match text.splitOn "-" with
  | [ds, ms, ys] =>
    match ds.toNat?, ms.toNat?, ys.toNat? with
    | some d, some m, some y =>
      if ds.length ≤ 2 ∧ ms.length ≤ 2 ∧ ys.length = 4 ∧
         1 ≤ m ∧ m ≤ 12 ∧ 1 ≤ d ∧ (d : Int) ≤ daysInMonth (y : Int) (m : Int)
      then some ⟨(y : Int), (m : Int), (d : Int)⟩ else none
    | _, _, _ => none
  | _ => none

/-- Source `Note.UpdateCompleteBy`: error on blank input; the literal token
"nil" clears the due date; otherwise `time.Parse("2-1-2006", text).Unix()`
with the parse error silently discarded (a failed parse leaves Go's zero
time, whose `Unix()` is `goZeroTimeUnix`). -/
def updateCompleteBy (now : Int) (note : Note) (text : String) : Note × Option String :=
  if (trimString text).length = 0 then
    (note, some "Note due date is empty")
  else if text = "nil" then
    ({ note with completeBy := 0, updatedAt := now }, none)
  else
    let timeValue : Int :=
      match parseDayMonthYear text with
      | some dt => dateToUnix dt.year dt.month dt.day
      | none => goZeroTimeUnix
    ({ note with completeBy := timeValue, updatedAt := now }, none)

/-! ## Backup (source `ReminderData.CreateBackup` / `ReminderData.AutoBackup`) -/

/-- Models Go `path.Ext`: the suffix beginning at the final dot in the final
slash-separated element, empty if there is no dot. -/
def pathExt (p : String) : String :=
  let rev := p.data.reverse
  let pre := rev.takeWhile (fun c => c ≠ '.' && c ≠ '/')
  match rev.drop pre.length with
  | '.' :: _ => String.mk ('.' :: pre.reverse)
  | _ => ""

/-- The backup file name `P_backup_<unixSeconds>.ext` built by
`CreateBackup` from the data file path. -/
def backupFilePath (dataFile : String) (now : Int) : String :=
  let ext := pathExt dataFile
  String.mk (dataFile.data.take (dataFile.data.length - ext.data.length)) ++
    "_backup_" ++ toString now ++ ext

/-- The aggregate together with the backup files existing on disk (the file
system effect of `CreateBackup`, abstracted to the list of backup paths). -/
structure BackupState where
  rd : ReminderData
  backups : List String
deriving Repr, DecidableEq

/-- Source `ReminderData.CreateBackup`, restricted to its state effect on a
successful copy: computes the timestamped backup path and writes the copy. -/
def createBackup (now : Int) (st : BackupState) : String × BackupState :=
  let dstFile := backupFilePath st.rd.dataFile now
  (dstFile, { st with backups := st.backups ++ [dstFile] })

/-- Source `ReminderData.AutoBackup`: skip (no-op, no error) while the gap
since `LastBackupAt` is under `gapSecs`; otherwise create a backup, update
`LastBackupAt` to now and persist the aggregate. -/
def autoBackup (now : Int) (st : BackupState) (gapSecs : Int) : BackupState × String × Option String :=
  let gap := now - st.rd.lastBackupAt
  if gap < gapSecs then
    (st, "", none)
  else
    let (dstFile, st1) := createBackup now st
    let rd1 := { st1.rd with lastBackupAt := now }
    let (rd2, err) := updateDataFile now rd1
    ({ st1 with rd := rd2 }, dstFile, err)

/-! ## Spec-side definition for the annual-recurrence claim -/

/-- Written from the spec's words for the annual-recurrence sentence (not
from the source): the three occurrences obtained by projecting the month/day
of `completeBy` (year discarded) onto the previous year, the current year
and the next year. -/
def specAnnualOccurrences (currentTimestamp completeBy : Int) : List Int :=
  let y := (unixToDate currentTimestamp).year
  let dt := unixToDate completeBy
  [dateToUnix (y - 1) dt.month dt.day,
   dateToUnix y dt.month dt.day,
   dateToUnix (y + 1) dt.month dt.day]

/-! ## Helper lemmas -/

theorem mem_getCommonMembersIntSlices {x : Int} {a b : List Int} :
    x ∈ getCommonMembersIntSlices a b ↔ x ∈ a ∧ x ∈ b := by
  simp only [getCommonMembersIntSlices, List.mem_flatMap, List.mem_map, List.mem_filter,
    beq_iff_eq]
  constructor
  · rintro ⟨e1, he1, z, ⟨hz, rfl⟩, rfl⟩
    exact ⟨he1, hz⟩
  · rintro ⟨ha, hb⟩
    exact ⟨x, ha, x, ⟨hb, rfl⟩, rfl⟩

theorem getCommonMembersIntSlices_eq_nil_iff {a b : List Int} :
    getCommonMembersIntSlices a b = [] ↔ ∀ x ∈ a, x ∉ b := by
  rw [List.eq_nil_iff_forall_not_mem]
  constructor
  · intro h x hxa hxb
    exact h x (mem_getCommonMembersIntSlices.mpr ⟨hxa, hxb⟩)
  · intro h x hx
    obtain ⟨hxa, hxb⟩ := mem_getCommonMembersIntSlices.mp hx
    exact h x hxa hxb

theorem intPresentInSlice_eq_true_iff {a : Int} {l : List Int} :
    intPresentInSlice a l = true ↔ a ∈ l := by
  simp only [intPresentInSlice, List.any_eq_true, beq_iff_eq]
  constructor
  · rintro ⟨b, hb, rfl⟩
    exact hb
  · intro h
    exact ⟨a, h, rfl⟩

theorem intPresentInSlice_eq_false {a : Int} {l : List Int} (h : a ∉ l) :
    intPresentInSlice a l = false := by
  rw [← Bool.not_eq_true, intPresentInSlice_eq_true_iff]
  exact h

theorem isTimeForRepeatNote_eq_true_iff
    {now cur prev next before after : Int} :
    isTimeForRepeatNote now cur prev next before after = true ↔
      ((cur - before * (24 * 60 * 60) ≤ now ∧ now ≤ cur + after * (24 * 60 * 60)) ∨
       (prev - before * (24 * 60 * 60) ≤ now ∧ now ≤ prev + after * (24 * 60 * 60)) ∨
       (next - before * (24 * 60 * 60) ≤ now ∧ now ≤ next + after * (24 * 60 * 60))) := by
  simp [isTimeForRepeatNote, Bool.or_eq_true, Bool.and_eq_true, decide_eq_true_eq, or_assoc]

theorem eq_of_mem_noteEntries {tags : List Tag} {ts : Int} {n x : Note}
    (h : x ∈ noteEntries tags ts n) : x = n := by
  unfold noteEntries at h
  simp only [List.mem_append] at h
  rcases h with (h | h) | h <;> (split at h <;> simp_all)

theorem noteEntries_ne_nil_iff (tags : List Tag) (ts : Int) (n : Note) :
    noteEntries tags ts n ≠ [] ↔
      (((getCommonMembersIntSlices n.tagIds (idsForGroup tags "repeat")).length = 0 ∧
          n.completeBy ≠ 0 ∧ n.completeBy - 7 * 24 * 60 * 60 ≤ ts) ∨
       (0 < (getCommonMembersIntSlices n.tagIds (idsForGroup tags "repeat")).length ∧
          n.completeBy ≠ 0 ∧ annualCheck tags ts n = true) ∨
       (0 < (getCommonMembersIntSlices n.tagIds (idsForGroup tags "repeat")).length ∧
          n.completeBy ≠ 0 ∧ monthlyCheck tags ts n = true)) := by
  unfold noteEntries
  split_ifs <;> simp_all

theorem mem_noteEntries_self {tags : List Tag} {ts : Int} {n : Note}
    (h : noteEntries tags ts n ≠ []) : n ∈ noteEntries tags ts n := by
  unfold noteEntries at h ⊢
  split_ifs at h ⊢ <;> simp_all

theorem mem_notesApprachingDueDate {rd : ReminderData} {ts : Int} {note : Note} :
    note ∈ notesApprachingDueDate rd ts ↔
      note ∈ rd.notes ∧ note.status = "pending" ∧
        noteEntries rd.tags ts note ≠ [] := by
  unfold notesApprachingDueDate withStatus
  simp only [List.mem_flatMap, List.mem_filter, beq_iff_eq]
  constructor
  · rintro ⟨n, ⟨hn, hs⟩, hx⟩
    obtain rfl := eq_of_mem_noteEntries hx
    refine ⟨hn, hs, ?_⟩
    intro hnil
    rw [hnil] at hx
    exact absurd hx (List.not_mem_nil _)
  · rintro ⟨hn, hs, hne⟩
    exact ⟨note, ⟨hn, hs⟩, mem_noteEntries_self hne⟩

theorem idsForGroup_basicTags_repeat (ct : Int) :
    idsForGroup (basicTags ct) "repeat" = [4, 5] := rfl

theorem fromSlug_basicTags_annually (ct : Int) :
    fromSlug (basicTags ct) "repeat-annually" =
      some ⟨4, "repeat-annually", "repeat", ct, ct⟩ := rfl

theorem fromSlug_basicTags_monthly (ct : Int) :
    fromSlug (basicTags ct) "repeat-monthly" =
      some ⟨5, "repeat-monthly", "repeat", ct, ct⟩ := rfl

theorem annualCheck_eq_false {tags : List Tag} {ts : Int} {n : Note}
    (h : ∀ t, fromSlug tags "repeat-annually" = some t → t.id ∉ n.tagIds) :
    annualCheck tags ts n = false := by
  unfold annualCheck
  cases hfs : fromSlug tags "repeat-annually" with
  | none => rfl
  | some t =>
    simp [intPresentInSlice_eq_false (h t hfs)]

theorem monthlyCheck_eq_false {tags : List Tag} {ts : Int} {n : Note}
    (h : ∀ t, fromSlug tags "repeat-monthly" = some t → t.id ∉ n.tagIds) :
    monthlyCheck tags ts n = false := by
  unfold monthlyCheck
  cases hfs : fromSlug tags "repeat-monthly" with
  | none => rfl
  | some t =>
    simp [intPresentInSlice_eq_false (h t hfs)]

/-! ## Sample data for witnesses and counterexamples -/

def sampleUser : User := ⟨"alice", "alice@example.com"⟩

def plainNote : Note :=
  { text := "pay rent", comments := [], status := "pending", tagIds := [0],
    completeBy := 1000000000, createdAt := 0, updatedAt := 0 }

def plainRd : ReminderData :=
  { user := sampleUser, notes := [plainNote], tags := basicTags 0,
    dataFile := "remind.json", lastBackupAt := 0, updatedAt := 0 }

def zeroDueNote : Note :=
  { text := "someday", comments := [], status := "pending", tagIds := [4, 5],
    completeBy := 0, createdAt := 0, updatedAt := 0 }

def zeroDueRd : ReminderData :=
  { user := sampleUser, notes := [zeroDueNote], tags := basicTags 0,
    dataFile := "remind.json", lastBackupAt := 0, updatedAt := 0 }

def repeatNote : Note :=
  { text := "anniversary", comments := [], status := "pending", tagIds := [4],
    completeBy := 1646870400, createdAt := 0, updatedAt := 0 }

def emptyRd : ReminderData :=
  { user := sampleUser, notes := [], tags := [],
    dataFile := "remind.json", lastBackupAt := 0, updatedAt := 0 }

def workTagA : Tag := ⟨0, "work", "", 1, 1⟩

def workTagB : Tag := ⟨1, "work", "", 2, 2⟩

def dueNote : Note :=
  { text := "tax return", comments := [], status := "pending", tagIds := [0],
    completeBy := 1646870400, createdAt := 0, updatedAt := 0 }

def sampleState : BackupState :=
  ⟨{ user := sampleUser, notes := [], tags := [],
     dataFile := "remind.json", lastBackupAt := 1000, updatedAt := 0 }, []⟩

def quarterTag : Tag := ⟨7, "repeat-quarterly", "repeat", 0, 0⟩

def quarterNote : Note :=
  { text := "quarterly review", comments := [], status := "pending", tagIds := [7],
    completeBy := 1646870400, createdAt := 0, updatedAt := 0 }

def quarterRd : ReminderData :=
  { user := sampleUser, notes := [quarterNote], tags := basicTags 0 ++ [quarterTag],
    dataFile := "remind.json", lastBackupAt := 0, updatedAt := 0 }

/-! ## Claim theorems -/

/-- C3: a pending note with a nonzero due date and no repeat-group tag is
selected by the Due-Date Visibility Engine exactly when "now" is at or past
`completeBy - 7 days`, with no upper bound. -/
theorem plainDueDate_visibility (rd : ReminderData) (ts : Int) (note : Note)
    (hmem : note ∈ rd.notes) (hst : note.status = "pending")
    (hcb : note.completeBy ≠ 0)
    (hnorep : getCommonMembersIntSlices note.tagIds (idsForGroup rd.tags "repeat") = []) :
    note ∈ notesApprachingDueDate rd ts ↔ note.completeBy - 7 * 24 * 60 * 60 ≤ ts := by
  rw [mem_notesApprachingDueDate, noteEntries_ne_nil_iff]
  simp [hmem, hst, hcb, hnorep]

/-- Witness for C3: a plain pending note is still selected a billion seconds
past its due date. -/
theorem plainDueDate_visibility_witness :
    plainNote ∈ notesApprachingDueDate plainRd 2000000000 :=
  (plainDueDate_visibility plainRd 2000000000 plainNote (by decide) (by decide)
    (by decide) (by decide)).mpr (by decide)

/-- C4: a note with `completeBy = 0` is never selected by the engine,
whatever its tags, status, or the value of "now". -/
theorem zeroCompleteBy_never_selected (rd : ReminderData) (ts : Int) (note : Note)
    (hcb : note.completeBy = 0) :
    note ∉ notesApprachingDueDate rd ts := by
  rw [mem_notesApprachingDueDate]
  rintro ⟨-, -, hne⟩
  rw [noteEntries_ne_nil_iff] at hne
  simp [hcb] at hne

/-- Witness for C4: a pending note carrying both repeat tags but no due date
is not selected. -/
theorem zeroCompleteBy_never_selected_witness :
    zeroDueNote ∉ notesApprachingDueDate zeroDueRd 1704672000 :=
  zeroCompleteBy_never_selected zeroDueRd 1704672000 zeroDueNote rfl

/-- C5: `UpdateStatus` is a no-op reporting success (not an error) when the
note carries a repeat-group tag, and likewise when the requested status
equals the current one: the returned note is the input note, every field
unchanged. -/
theorem updateStatus_noop (now : Int) (note : Note) (status : String)
    (repeatTagIds : List Int) :
    (getCommonMembersIntSlices note.tagIds repeatTagIds ≠ [] →
       updateStatus now note status repeatTagIds = (note, none)) ∧
    (note.status = status →
       updateStatus now note status repeatTagIds = (note, none)) := by
  constructor
  · intro h
    have h0 : (getCommonMembersIntSlices note.tagIds repeatTagIds).length ≠ 0 := by
      simpa [List.length_eq_zero] using h
    simp [updateStatus, h0]
  · intro h
    by_cases h0 : (getCommonMembersIntSlices note.tagIds repeatTagIds).length ≠ 0
    · simp [updateStatus, h0]
    · simp [updateStatus, h0, h]

/-- Witness for C5: marking a repeat-tagged note done changes nothing and
reports success. -/
theorem updateStatus_noop_witness :
    updateStatus 777 repeatNote "done" [4, 5] = (repeatNote, none) :=
  (updateStatus_noop 777 repeatNote "done" [4, 5]).1 (by decide)

/-- C6: registering the same (non-empty) slug twice yields the
duplicate-slug error on the second registration and leaves the tag registry
unchanged (same list, hence same size, elements and order). -/
theorem duplicateSlug_rejected (now1 now2 : Int) (rd : ReminderData) (t1 t2 : Tag)
    (hslug : t1.slug = t2.slug) (_hne : t2.slug ≠ "") :
    (newTagAppend now2 (newTagAppend now1 rd t1).1 t2).2 = some "Tag Already Exists" ∧
    (newTagAppend now2 (newTagAppend now1 rd t1).1 t2).1.tags =
      (newTagAppend now1 rd t1).1.tags := by
  have hpresent : ((newTagAppend now1 rd t1).1).tags.any
      (fun existingTag => existingTag.slug == t2.slug) = true := by
    unfold newTagAppend
    split_ifs with h
    · simp only [← hslug]
      exact h
    · simp [updateDataFile, hslug]
  set rd1 := (newTagAppend now1 rd t1).1 with hrd1
  have hstep : newTagAppend now2 rd1 t2 = (rd1, some "Tag Already Exists") := by
    unfold newTagAppend
    rw [if_pos hpresent]
  rw [hstep]
  exact ⟨rfl, rfl⟩

/-- Witness for C6: the second registration of slug "work" fails and keeps
the registry as the first call left it. -/
theorem duplicateSlug_rejected_witness :
    (newTagAppend 20 (newTagAppend 10 emptyRd workTagA).1 workTagB).2 =
        some "Tag Already Exists" ∧
    (newTagAppend 20 (newTagAppend 10 emptyRd workTagA).1 workTagB).1.tags =
      (newTagAppend 10 emptyRd workTagA).1.tags :=
  duplicateSlug_rejected 10 20 emptyRd workTagA workTagB rfl (by decide)

/-- C7: `UpdateCompleteBy` errors exactly on input that is blank after
trimming (leaving the note untouched), the literal token "nil" clears the
due date and bumps `updatedAt`, and any other input succeeds with
`completeBy` set to the `D-M-YYYY` parse, a failed parse silently leaving
the zero-time timestamp. -/
theorem updateCompleteBy_behaviour (now : Int) (note : Note) (text : String) :
    ((updateCompleteBy now note text).2 ≠ none ↔ (trimString text).length = 0) ∧
    ((trimString text).length = 0 →
       updateCompleteBy now note text = (note, some "Note due date is empty")) ∧
    (text = "nil" →
       updateCompleteBy now note text =
         ({ note with completeBy := 0, updatedAt := now }, none)) ∧
    ((trimString text).length ≠ 0 → text ≠ "nil" →
       updateCompleteBy now note text =
         ({ note with
             completeBy := (match parseDayMonthYear text with
               | some dt => dateToUnix dt.year dt.month dt.day
               | none => goZeroTimeUnix),
             updatedAt := now }, none)) := by
  refine ⟨?_, ?_, ?_, ?_⟩
  · unfold updateCompleteBy
    split_ifs <;> simp_all
  · intro h
    simp [updateCompleteBy, h]
  · intro h
    subst h
    unfold updateCompleteBy
    rw [if_neg (by decide), if_pos rfl]
  · intro h1 h2
    unfold updateCompleteBy
    rw [if_neg h1, if_neg h2]

/-- Witness for C7: the "nil" token clears an existing due date and bumps
`updatedAt`. -/
theorem updateCompleteBy_behaviour_witness :
    updateCompleteBy 900 dueNote "nil" =
      ({ dueNote with completeBy := 0, updatedAt := 900 }, none) :=
  (updateCompleteBy_behaviour 900 dueNote "nil").2.2.1 rfl

/-- C8: `AutoBackup` skips (no backup file, `LastBackupAt` unchanged, no
error) when the gap since the last backup is under `gapSecs`; otherwise it
creates the timestamped backup, sets `LastBackupAt` to now, and persists the
aggregate. -/
theorem autoBackup_spec (now : Int) (st : BackupState) (gapSecs : Int) :
    (now - st.rd.lastBackupAt < gapSecs →
       autoBackup now st gapSecs = (st, "", none)) ∧
    (¬ now - st.rd.lastBackupAt < gapSecs →
       autoBackup now st gapSecs =
         (⟨{ st.rd with lastBackupAt := now, updatedAt := now },
           st.backups ++ [backupFilePath st.rd.dataFile now]⟩,
          backupFilePath st.rd.dataFile now, none)) := by
  constructor <;> intro h <;> simp [autoBackup, createBackup, updateDataFile, h]

/-- Witness for C8: with a 3600-second threshold and only 1000 seconds
elapsed, nothing happens and no error is reported. -/
theorem autoBackup_spec_witness :
    autoBackup 2000 sampleState 3600 = (sampleState, "", none) :=
  (autoBackup_spec 2000 sampleState 3600).1 (by decide)

/-- C9 (implicit): a note whose tags meet the repeat group but include
neither the id of the "repeat-annually" tag nor the id of the
"repeat-monthly" tag is never selected by the engine. -/
theorem customRepeatTag_never_selected (rd : ReminderData) (ts : Int) (note : Note)
    (hrep : getCommonMembersIntSlices note.tagIds (idsForGroup rd.tags "repeat") ≠ [])
    (hA : ∀ t, fromSlug rd.tags "repeat-annually" = some t → t.id ∉ note.tagIds)
    (hM : ∀ t, fromSlug rd.tags "repeat-monthly" = some t → t.id ∉ note.tagIds) :
    note ∉ notesApprachingDueDate rd ts := by
  rw [mem_notesApprachingDueDate]
  rintro ⟨-, -, hne⟩
  rw [noteEntries_ne_nil_iff] at hne
  have hlen : (getCommonMembersIntSlices note.tagIds (idsForGroup rd.tags "repeat")).length ≠ 0 := by
    simpa [List.length_eq_zero] using hrep
  rcases hne with ⟨h0, -, -⟩ | ⟨-, -, hch⟩ | ⟨-, -, hch⟩
  · exact hlen h0
  · rw [annualCheck_eq_false hA] at hch
    simp at hch
  · rw [monthlyCheck_eq_false hM] at hch
    simp at hch

/-- Witness for C9: a note tagged only with a custom "repeat-quarterly" tag
(group "repeat") is not selected even with a nonzero due date. -/
theorem customRepeatTag_never_selected_witness :
    quarterNote ∉ notesApprachingDueDate quarterRd 1700000000 :=
  customRepeatTag_never_selected quarterRd 1700000000 quarterNote (by decide)
    (fun t ht => by
      rw [show fromSlug quarterRd.tags "repeat-annually" =
            some ⟨4, "repeat-annually", "repeat", 0, 0⟩ from rfl] at ht
      injection ht with h
      subst h
      decide)
    (fun t ht => by
      rw [show fromSlug quarterRd.tags "repeat-monthly" =
            some ⟨5, "repeat-monthly", "repeat", 0, 0⟩ from rfl] at ht
      injection ht with h
      subst h
      decide)

/-- C10 (implicit): the calendar projection helpers fail silently on days
absent from the target year/month, returning the Unix timestamp of Go's
zero time (a fixed large negative value) instead of a timestamp in the
current year/month. -/
theorem projectionHelpers_silent_failure (now d : Int)
    (hleap : isLeapYear (unixToDate now).year = false)
    (hd : daysInMonth (unixToDate now).year (unixToDate now).month < d) :
    unixTimestampForCorrespondingCurrentYear now 2 29 = goZeroTimeUnix ∧
    unixTimestampForCorrespondingCurrentYearMonth now d = goZeroTimeUnix ∧
    goZeroTimeUnix = -62135596800 := by
  refine ⟨?_, ?_, rfl⟩
  · unfold unixTimestampForCorrespondingCurrentYear parseYMDTimestamp
    rw [if_neg]
    rintro ⟨-, -, -, -, -, h29⟩
    simp [daysInMonth, hleap] at h29
  · unfold unixTimestampForCorrespondingCurrentYearMonth parseYMDTimestamp
    rw [if_neg]
    rintro ⟨-, -, -, -, -, hdd⟩
    omega

/-- Witness for C10: in April 2023 (not a leap year), projecting Feb 29 onto
the current year and day 31 onto the current month both yield the zero-time
timestamp. -/
theorem projectionHelpers_silent_failure_witness :
    unixTimestampForCorrespondingCurrentYear 1681516800 2 29 = goZeroTimeUnix ∧
    unixTimestampForCorrespondingCurrentYearMonth 1681516800 31 = goZeroTimeUnix ∧
    goZeroTimeUnix = -62135596800 :=
  projectionHelpers_silent_failure 1681516800 31 (by decide) (by decide)

def annualNote : Note :=
  { text := "renew passport", comments := [], status := "pending", tagIds := [4],
    completeBy := 1672444800, createdAt := 0, updatedAt := 0 }

def annualRd : ReminderData :=
  { user := sampleUser, notes := [annualNote], tags := basicTags 0,
    dataFile := "remind.json", lastBackupAt := 0, updatedAt := 0 }

def marchNote : Note :=
  { text := "insurance renewal", comments := [], status := "pending", tagIds := [4],
    completeBy := 1646870400, createdAt := 0, updatedAt := 0 }

def marchRd : ReminderData :=
  { user := sampleUser, notes := [marchNote], tags := basicTags 0,
    dataFile := "remind.json", lastBackupAt := 0, updatedAt := 0 }

def monthlyNote : Note :=
  { text := "pay card", comments := [], status := "pending", tagIds := [5],
    completeBy := 1644883200, createdAt := 0, updatedAt := 0 }

def monthlyRd : ReminderData :=
  { user := sampleUser, notes := [monthlyNote], tags := basicTags 0,
    dataFile := "remind.json", lastBackupAt := 0, updatedAt := 0 }

/-- C1 counterexample: with the basic tag registry, a pending note tagged
`repeat-annually` with `completeBy` = 2022-12-31 IS selected by the engine
at "now" = 2024-01-08 00:00 UTC, yet "now" lies in none of the windows
`[occ - 3 days, occ + 7 days]` around the three calendar projections of
Dec 31 onto the previous, current and next year (2024 is a leap year, so
the code's `current - 365 days` occurrence lands on 2024-01-01, one day
later than the calendar projection 2023-12-31). -/
theorem annualRecurrence_visibility_counterexample :
    annualNote ∈ notesApprachingDueDate annualRd 1704672000 ∧
    ¬ (∃ o ∈ specAnnualOccurrences 1704672000 annualNote.completeBy,
        o - 3 * 24 * 60 * 60 ≤ (1704672000 : Int) ∧
        (1704672000 : Int) ≤ o + 7 * 24 * 60 * 60) := by
  constructor
  · decide
  · decide

/-- C1 (amended): with the basic tag registry, a pending note with a nonzero
due date whose only repeat tag is `repeat-annually` is selected exactly when
"now" lies within `[occ - 3 days, occ + 7 days]` for one of the three
occurrences `{current - 365 days, current, current + 365 days}`, where
`current` is the calendar projection of the due date's month/day onto the
current year (previous/next are 365-day shifts, not calendar projections
onto the previous/next year). -/
theorem annualRecurrence_visibility
    (rd : ReminderData) (ct ts occ : Int) (note : Note)
    (htags : rd.tags = basicTags ct)
    (hmem : note ∈ rd.notes) (hst : note.status = "pending")
    (hcb : note.completeBy ≠ 0)
    (hA : (4 : Int) ∈ note.tagIds) (hM : (5 : Int) ∉ note.tagIds)
    (hylo : 1000 ≤ (unixToDate ts).year) (hyhi : (unixToDate ts).year ≤ 9999)
    (hmlo : 1 ≤ (unixToDate note.completeBy).month)
    (hmhi : (unixToDate note.completeBy).month ≤ 12)
    (hdlo : 1 ≤ (unixToDate note.completeBy).day)
    (hdhi : (unixToDate note.completeBy).day ≤
      daysInMonth (unixToDate ts).year (unixToDate note.completeBy).month)
    (hocc : occ = dateToUnix (unixToDate ts).year (unixToDate note.completeBy).month
      (unixToDate note.completeBy).day) :
    note ∈ notesApprachingDueDate rd ts ↔
      ∃ o ∈ [occ - 365 * 24 * 60 * 60, occ, occ + 365 * 24 * 60 * 60],
        o - 3 * 24 * 60 * 60 ≤ ts ∧ ts ≤ o + 7 * 24 * 60 * 60 := by
  subst hocc
  have hcommon : (4 : Int) ∈ getCommonMembersIntSlices note.tagIds [4, 5] :=
    mem_getCommonMembersIntSlices.mpr ⟨hA, by decide⟩
  have hlen : (getCommonMembersIntSlices note.tagIds [4, 5]).length ≠ 0 := by
    simp [List.length_eq_zero, List.eq_nil_iff_forall_not_mem]
    exact ⟨4, hcommon⟩
  have hcur : unixTimestampForCorrespondingCurrentYear ts
      (unixToDate note.completeBy).month (unixToDate note.completeBy).day =
      dateToUnix (unixToDate ts).year (unixToDate note.completeBy).month
        (unixToDate note.completeBy).day := by
    unfold unixTimestampForCorrespondingCurrentYear parseYMDTimestamp
    rw [if_pos ⟨hylo, hyhi, hmlo, hmhi, hdlo, hdhi⟩]
  have hann : annualCheck (basicTags ct) ts note =
      isTimeForRepeatNote ts
        (dateToUnix (unixToDate ts).year (unixToDate note.completeBy).month
          (unixToDate note.completeBy).day)
        (dateToUnix (unixToDate ts).year (unixToDate note.completeBy).month
          (unixToDate note.completeBy).day - 365 * 24 * 60 * 60)
        (dateToUnix (unixToDate ts).year (unixToDate note.completeBy).month
          (unixToDate note.completeBy).day + 365 * 24 * 60 * 60) 3 7 := by
    unfold annualCheck
    rw [fromSlug_basicTags_annually]
    simp only [intPresentInSlice_eq_true_iff.mpr hA, Bool.true_and, hcur]
  have hmon : monthlyCheck (basicTags ct) ts note = false := by
    unfold monthlyCheck
    rw [fromSlug_basicTags_monthly]
    simp [intPresentInSlice_eq_false hM]
  have hmon2 : ¬ (monthlyCheck (basicTags ct) ts note = true) := by
    rw [hmon]
    exact Bool.false_ne_true
  rw [mem_notesApprachingDueDate, noteEntries_ne_nil_iff, htags,
    idsForGroup_basicTags_repeat, hann]
  simp only [hmem, hst, hcb, hlen, hmon2, Nat.pos_of_ne_zero hlen, ne_eq,
    not_false_eq_true, eq_self_iff_true, true_and, false_and, and_false,
    and_true, false_or, or_false, Bool.false_eq_true,
    isTimeForRepeatNote_eq_true_iff,
    List.mem_cons, List.not_mem_nil, exists_eq_or_imp, exists_eq_left]
  omega

/-- Witness for C1 (amended): a `repeat-annually` note due March 10, 2022 is
selected on March 8, 2024, which lies in the window of the current-year
occurrence March 10, 2024. -/
theorem annualRecurrence_visibility_witness :
    marchNote ∈ notesApprachingDueDate marchRd 1709856000 :=
  (annualRecurrence_visibility marchRd 0 1709856000 1710028800 marchNote rfl
    (by decide) (by decide) (by decide) (by decide) (by decide) (by decide)
    (by decide) (by decide) (by decide) (by decide) (by decide)
    (by decide)).mpr (by decide)

/-- C2: with the basic tag registry, a pending note with a nonzero due date
whose only repeat tag is `repeat-monthly` is selected exactly when "now"
lies within `[occ - 1 day, occ + 3 days]` for one of the three occurrences
`{current - 30 days, current, current + 30 days}`, where `current` is the
projection of the due date's day-of-month onto the current year and month. -/
theorem monthlyRecurrence_visibility
    (rd : ReminderData) (ct ts occ : Int) (note : Note)
    (htags : rd.tags = basicTags ct)
    (hmem : note ∈ rd.notes) (hst : note.status = "pending")
    (hcb : note.completeBy ≠ 0)
    (hM : (5 : Int) ∈ note.tagIds) (hA : (4 : Int) ∉ note.tagIds)
    (hylo : 1000 ≤ (unixToDate ts).year) (hyhi : (unixToDate ts).year ≤ 9999)
    (hmlo : 1 ≤ (unixToDate ts).month) (hmhi : (unixToDate ts).month ≤ 12)
    (hdlo : 1 ≤ (unixToDate note.completeBy).day)
    (hdhi : (unixToDate note.completeBy).day ≤
      daysInMonth (unixToDate ts).year (unixToDate ts).month)
    (hocc : occ = dateToUnix (unixToDate ts).year (unixToDate ts).month
      (unixToDate note.completeBy).day) :
    note ∈ notesApprachingDueDate rd ts ↔
      ∃ o ∈ [occ - 30 * 24 * 60 * 60, occ, occ + 30 * 24 * 60 * 60],
        o - 1 * 24 * 60 * 60 ≤ ts ∧ ts ≤ o + 3 * 24 * 60 * 60 := by
  subst hocc
  have hcommon : (5 : Int) ∈ getCommonMembersIntSlices note.tagIds [4, 5] :=
    mem_getCommonMembersIntSlices.mpr ⟨hM, by decide⟩
  have hlen : (getCommonMembersIntSlices note.tagIds [4, 5]).length ≠ 0 := by
    simp [List.length_eq_zero, List.eq_nil_iff_forall_not_mem]
    exact ⟨5, hcommon⟩
  have hcur : unixTimestampForCorrespondingCurrentYearMonth ts
      (unixToDate note.completeBy).day =
      dateToUnix (unixToDate ts).year (unixToDate ts).month
        (unixToDate note.completeBy).day := by
    unfold unixTimestampForCorrespondingCurrentYearMonth parseYMDTimestamp
    rw [if_pos ⟨hylo, hyhi, hmlo, hmhi, hdlo, hdhi⟩]
  have hmonc : monthlyCheck (basicTags ct) ts note =
      isTimeForRepeatNote ts
        (dateToUnix (unixToDate ts).year (unixToDate ts).month
          (unixToDate note.completeBy).day)
        (dateToUnix (unixToDate ts).year (unixToDate ts).month
          (unixToDate note.completeBy).day - 30 * 24 * 60 * 60)
        (dateToUnix (unixToDate ts).year (unixToDate ts).month
          (unixToDate note.completeBy).day + 30 * 24 * 60 * 60) 1 3 := by
    unfold monthlyCheck
    rw [fromSlug_basicTags_monthly]
    simp only [intPresentInSlice_eq_true_iff.mpr hM, Bool.true_and, hcur]
  have hannc : annualCheck (basicTags ct) ts note = false := by
    unfold annualCheck
    rw [fromSlug_basicTags_annually]
    simp [intPresentInSlice_eq_false hA]
  have hannc2 : ¬ (annualCheck (basicTags ct) ts note = true) := by
    rw [hannc]
    exact Bool.false_ne_true
  rw [mem_notesApprachingDueDate, noteEntries_ne_nil_iff, htags,
    idsForGroup_basicTags_repeat, hmonc]
  simp only [hmem, hst, hcb, hlen, hannc2, Nat.pos_of_ne_zero hlen, ne_eq,
    not_false_eq_true, eq_self_iff_true, true_and, false_and, and_false,
    and_true, false_or, or_false, Bool.false_eq_true,
    isTimeForRepeatNote_eq_true_iff,
    List.mem_cons, List.not_mem_nil, exists_eq_or_imp, exists_eq_left]
  omega

/-- Witness for C2: a `repeat-monthly` note with day-of-month 15 is selected
on October 14, 2023, one day before the October 15 occurrence. -/
theorem monthlyRecurrence_visibility_witness :
    monthlyNote ∈ notesApprachingDueDate monthlyRd 1697241600 :=
  (monthlyRecurrence_visibility monthlyRd 0 1697241600 1697328000 monthlyNote rfl
    (by decide) (by decide) (by decide) (by decide) (by decide) (by decide)
    (by decide) (by decide) (by decide) (by decide) (by decide)
    (by decide)).mpr (by decide)

end Reminder
